import Mathlib

/-!
Shallow embedding of the automated trigger subsystem of
`ai-news-summarizer-poc` (src/services/triggers/{base,rss,manager}.ts and
the `trigger --test` CLI path of src/cli.ts).

Conventions of the embedding:
* JavaScript `Set<string>` (which preserves insertion order) is modelled as a
  `List String` kept duplicate-free by the insertion function `addSeen`.
* JavaScript truthiness on optional strings/numbers (`x || y`) is modelled
  explicitly: `none` and `some ""` (resp. `some 0`) are falsy.
* `Date` values are modelled as `Nat` timestamps; `Date.now()` is passed in
  as an explicit `now` argument.
* Network fetches (`parser.parseURL`) are modelled by an explicit
  `Except String Feed` argument: `.ok feed` is a successful parse of the
  current feed snapshot, `.error e` a fetch/parse failure (thrown in TS,
  caught by the surrounding try/catch).
* The wired handler (`onTrigger`, a promise that may reject) is a function
  `TriggerEvent → Except String Unit`.
* Only `console.error` output is tracked (field/result lists named `errlog`
  or `log`); `console.log` informational lines are ignored.
-/

/-- JS truthiness of an optional string: `undefined`/`null` and `""` are falsy. -/
def strTruthy : Option String → Bool
  | some s => s != ""
  | none => false

/-- JS truthiness of an optional number (model: `Nat`): missing and `0` are falsy. -/
def natTruthy : Option Nat → Bool
  | some n => n != 0
  | none => false

/-- `a || b` on optional strings, as JS evaluates it. -/
def jsOrStr (a b : Option String) : Option String :=
  if strTruthy a then a else b

/-- One RSS feed item as consumed by `RssTrigger` (fields of `rss-parser` items
that the trigger reads: `guid`, `link`, `id`, `title`, `pubDate`, `categories`,
`creator`, `dc:creator`). -/
structure FeedItem where
  guid : Option String
  link : Option String
  itemIdField : Option String
  title : Option String
  pubDate : Option Nat
  categories : List String
  creator : Option String
  dcCreator : Option String
deriving DecidableEq, Repr

/-- A parsed feed snapshot (`feed.title`, `feed.items`). -/
structure Feed where
  title : Option String
  items : List FeedItem
deriving DecidableEq, Repr

/-- `TriggerConfig` from base.ts merged with the `RssTriggerConfig` extension
from rss.ts (`feedUrl`, `schedule`, deprecated `maxItems`, `testMode`,
`maxItemsPerCheck`); in TS the rss-specific fields live in the same object
through the index signature. -/
structure TriggerConfig where
  id : String
  name : String
  type : String
  enabled : Bool
  profile : String
  feedUrl : String
  schedule : String
  maxItems : Option Nat
  testMode : Bool
  maxItemsPerCheck : Option Nat
deriving DecidableEq, Repr

/-- Metadata attached to an emitted event by `RssTrigger.checkFeed`. -/
structure EventMetadata where
  feedTitle : Option String
  feedUrl : String
  itemId : Option String
  categories : List String
  author : Option String
deriving DecidableEq, Repr

/-- `TriggerEvent` from base.ts. -/
structure TriggerEvent where
  url : String
  title : Option String
  timestamp : Nat
  metadata : Option EventMetadata
deriving DecidableEq, Repr

/-- `RssTrigger.getItemId`: `item.guid || item.link || item.id || null`,
with JS falsiness of the empty string. -/
def getItemId (item : FeedItem) : Option String :=
  if strTruthy item.guid then item.guid
  else if strTruthy item.link then item.link
  else if strTruthy item.itemIdField then item.itemIdField
  else none

/-- `this.seenItems.add(itemId)` on an insertion-ordered set. -/
def addSeen (seen : List String) (iid : String) : List String :=
  if iid ∈ seen then seen else seen ++ [iid]

/-- The new-item collection loop of `checkFeed` (lines 111–117 of rss.ts):
walk the feed in order; an item with a truthy identifier that is not in the
seen-set is appended to `newItems` and its identifier is added to the
seen-set immediately. Returns `(newItems, updated seen-set)`. -/
def collectNew : List FeedItem → List String → List FeedItem × List String
  | [], seen => ([], seen)
  | item :: rest, seen =>
    match getItemId item with
    | none => collectNew rest seen
    | some iid =>
      if iid ∈ seen then collectNew rest seen
      else
        let r := collectNew rest (seen ++ [iid])
        (item :: r.1, r.2)

/-- The effective per-cycle cap (line 122 of rss.ts):
`this.rssConfig.maxItemsPerCheck || this.rssConfig.maxItems || 3`,
with JS falsiness of `0`. -/
def effCap (cfg : TriggerConfig) : Nat :=
  if natTruthy cfg.maxItemsPerCheck then cfg.maxItemsPerCheck.getD 0
  else if natTruthy cfg.maxItems then cfg.maxItems.getD 0
  else 3

/-- Seen-set compaction (lines 154–157 of rss.ts): if the set has more than
1000 entries, keep only the latest 500 (`Array.from(set).slice(-500)`). -/
def compactSeen (seen : List String) : List String :=
  if seen.length > 1000 then seen.drop (seen.length - 500) else seen

/-- Construction of the `TriggerEvent` for one dispatched item
(lines 135–146 of rss.ts). At the call site `item.link` is truthy. -/
def mkEvent (cfg : TriggerConfig) (feed : Feed) (now : Nat) (item : FeedItem) : TriggerEvent :=
  { url := item.link.getD ""
    title := item.title
    timestamp := item.pubDate.getD now
    metadata := some
      { feedTitle := feed.title
        feedUrl := cfg.feedUrl
        itemId := getItemId item
        categories := item.categories
        author := jsOrStr item.creator item.dcCreator } }

/-- Result of the shared dispatch step: whether the registered handler was
invoked, and the `console.error` lines produced. The return type has no
error component — `handleTriggerEvent` never throws. -/
structure DispatchResult where
  invoked : Bool
  log : List String
deriving DecidableEq, Repr

/-- `BaseTrigger.handleTriggerEvent` (base.ts): if the config is disabled the
event is dropped silently; otherwise the handler is awaited and a rejection
is caught and logged with the trigger's id. -/
def handleTriggerEvent (cfg : TriggerConfig) (onTrigger : TriggerEvent → Except String Unit)
    (event : TriggerEvent) : DispatchResult :=
  if !cfg.enabled then ⟨false, []⟩
  else
    match onTrigger event with
    | .ok _ => ⟨true, []⟩
    | .error e => ⟨true, ["Error handling trigger event for " ++ cfg.id ++ ": " ++ e]⟩

/-- Accumulated observable output of one `checkFeed` cycle: the events passed
to the shared dispatch step (in dispatch order), the sub-list of those for
which the registered handler was actually invoked, and `console.error` lines. -/
structure CheckOutput where
  events : List TriggerEvent
  invoked : List TriggerEvent
  errlog : List String
deriving DecidableEq, Repr

/-- The sequential dispatch loop of `checkFeed` (lines 133–151 of rss.ts):
items without a truthy `link` are skipped; each remaining item becomes an
event handed to `handleTriggerEvent`, awaited before the next. -/
def dispatchLoop (cfg : TriggerConfig) (onTrigger : TriggerEvent → Except String Unit)
    (feed : Feed) (now : Nat) : List FeedItem → CheckOutput
  | [] => ⟨[], [], []⟩
  | item :: rest =>
    let r := dispatchLoop cfg onTrigger feed now rest
    if strTruthy item.link then
      let ev := mkEvent cfg feed now item
      let d := handleTriggerEvent cfg onTrigger ev
      ⟨ev :: r.events, (if d.invoked then [ev] else []) ++ r.invoked, d.log ++ r.errlog⟩
    else r

/-- Mutable state of one `RssTrigger` instance: its config, the insertion-
ordered seen-set, `lastCheck`, and whether a cron task handle is held. -/
structure RssTrigger where
  config : TriggerConfig
  seenItems : List String
  lastCheck : Option Nat
  taskRunning : Bool
deriving DecidableEq, Repr

/-- The constructor state of a fresh `RssTrigger` (empty seen-set, no
`lastCheck`, no scheduled task). -/
def RssTrigger.new (cfg : TriggerConfig) : RssTrigger :=
  ⟨cfg, [], none, false⟩

/-- `RssTrigger.checkFeed` (lines 103–162 of rss.ts): set `lastCheck` to now;
fetch a fresh snapshot (a failure is caught and logged, ending the cycle);
collect new items while marking all of them seen; truncate the new-item list
to the effective cap and reverse it; dispatch sequentially; finally compact
the seen-set. -/
def checkFeed (onTrigger : TriggerEvent → Except String Unit)
    (fetchResult : Except String Feed) (now : Nat) (t : RssTrigger) :
    RssTrigger × CheckOutput :=
  match fetchResult with
  | .error e =>
    ({ t with lastCheck := some now },
     ⟨[], [], ["Error checking RSS feed " ++ t.config.id ++ ": " ++ e]⟩)
  | .ok feed =>
    let collected := collectNew feed.items t.seenItems
    let itemsToProcess := (collected.1.take (effCap t.config)).reverse
    let out := dispatchLoop t.config onTrigger feed now itemsToProcess
    ({ t with lastCheck := some now, seenItems := compactSeen collected.2 }, out)

/-- `RssTrigger.initializeSeenItems` (lines 78–101 of rss.ts): on a fetch
failure, log and leave the set as is; in test mode, do not pre-seed; in
normal mode, add every current item's identifier to the seen-set. -/
def initializeSeenItems (fetchResult : Except String Feed) (t : RssTrigger) : RssTrigger :=
  match fetchResult with
  | .error _ => t
  | .ok feed =>
    if t.config.testMode then t
    else
      { t with
        seenItems := feed.items.foldl (fun seen item =>
          match getItemId item with
          | some iid => addSeen seen iid
          | none => seen) t.seenItems }

/-- `RssTrigger.start` (lines 29–52 of rss.ts): a second start while a task
handle is held is a logged no-op; otherwise initialize the seen-set and
schedule the cron task. (The test-mode immediate check is a scheduling
effect, not a state change, and is not part of `start`'s state transition.) -/
def RssTrigger.start (fetchResult : Except String Feed) (t : RssTrigger) : RssTrigger :=
  if t.taskRunning then t
  else { initializeSeenItems fetchResult t with taskRunning := true }

/-- `RssTrigger.stop` (lines 54–60 of rss.ts): release the task handle if one
is held; nothing else is touched. -/
def RssTrigger.stop (t : RssTrigger) : RssTrigger :=
  if t.taskRunning then { t with taskRunning := false } else t

/-- Substring test used to model `String.includes` in
`getNextCheckInterval`. -/
def containsSub (s pat : String) : Bool :=
  (s.splitOn pat).length > 1

/-- `RssTrigger.getNextCheckInterval` (lines 70–76 of rss.ts), in
milliseconds. -/
def getNextCheckInterval (schedule : String) : Nat :=
  if containsSub schedule "*/5" then 5 * 60 * 1000
  else if containsSub schedule "*/15" then 15 * 60 * 1000
  else if containsSub schedule "0 *" then 60 * 60 * 1000
  else 60 * 60 * 1000

/-- The status snapshot returned by `RssTrigger.getStatus`. -/
structure TriggerStatus where
  running : Bool
  lastCheck : Option Nat
  nextCheck : Option Nat
deriving DecidableEq, Repr

/-- `RssTrigger.getStatus` (lines 62–68 of rss.ts). -/
def getStatus (now : Nat) (t : RssTrigger) : TriggerStatus :=
  { running := t.taskRunning
    lastCheck := t.lastCheck
    nextCheck := if t.taskRunning then some (now + getNextCheckInterval t.config.schedule)
                 else none }

/-- The orchestrator's trigger map (`Map<string, BaseTrigger>` in manager.ts),
modelled as an insertion-ordered association list. -/
structure TriggerManager where
  triggers : List (String × RssTrigger)
deriving DecidableEq, Repr

/-- `Map.set`: replace in place when the key exists, else append. -/
def mapSet (m : List (String × RssTrigger)) (k : String) (v : RssTrigger) :
    List (String × RssTrigger) :=
  if m.any (fun p => p.1 == k) then
    m.map (fun p => if p.1 == k then (k, v) else p)
  else m ++ [(k, v)]

/-- `Map.get`: first (only) binding of the key. -/
def mapGet (m : List (String × RssTrigger)) (k : String) : Option RssTrigger :=
  (m.find? (fun p => p.1 == k)).map (fun p => p.2)

/-- `TriggerManager.createTrigger` (lines 219–229 of manager.ts): construct
the variant selected by `config.type`; an unknown type produces a
`console.error` line and no trigger. -/
def createTrigger (cfg : TriggerConfig) : Option RssTrigger × List String :=
  if cfg.type == "rss" then (some (RssTrigger.new cfg), [])
  else (none, ["Unknown trigger type: " ++ cfg.type])

/-- `TriggerManager.stopAllTriggers` (lines 306–318 of manager.ts): stop each
held trigger (`stop` is total in the model, so no per-trigger error arises),
then `this.triggers.clear()`; the stopped instances are discarded with the
map, so the resulting state holds no triggers. -/
def stopAllTriggers (_tm : TriggerManager) : TriggerManager :=
  { triggers := [] }

/-- The per-config loop body of `loadTriggers` (lines 210–216 of manager.ts),
threading the map and the `console.error` log. -/
def loadTriggersAux (tm : TriggerManager) (log : List String) :
    List TriggerConfig → TriggerManager × List String
  | [] => (tm, log)
  | cfg :: rest =>
    match createTrigger cfg with
    | (some trig, l) =>
      loadTriggersAux { triggers := mapSet tm.triggers cfg.id trig } (log ++ l) rest
    | (none, l) => loadTriggersAux tm (log ++ l) rest

/-- `TriggerManager.loadTriggers` (lines 205–217 of manager.ts): stop and
discard all held triggers, then construct and register each incoming config. -/
def loadTriggers (tm : TriggerManager) (cfgs : List TriggerConfig) :
    TriggerManager × List String :=
  loadTriggersAux (stopAllTriggers tm) [] cfgs

/-- `TriggerManager.startTrigger` (lines 276–283 of manager.ts): not-found
ids reject; otherwise delegate to the instance's `start` (which consumes one
feed fetch, passed explicitly). -/
def startTrigger (tm : TriggerManager) (triggerId : String)
    (fetchResult : Except String Feed) : Except String TriggerManager :=
  match mapGet tm.triggers triggerId with
  | none => .error ("Trigger " ++ triggerId ++ " not found")
  | some t => .ok { triggers := mapSet tm.triggers triggerId (t.start fetchResult) }

/-- `TriggerManager.stopTrigger` (lines 285–292 of manager.ts). -/
def stopTrigger (tm : TriggerManager) (triggerId : String) :
    Except String TriggerManager :=
  match mapGet tm.triggers triggerId with
  | none => .error ("Trigger " ++ triggerId ++ " not found")
  | some t => .ok { triggers := mapSet tm.triggers triggerId t.stop }

/-- `TriggerManager.getTriggerStatus` (lines 320–328 of manager.ts). -/
def getTriggerStatus (tm : TriggerManager) (now : Nat) :
    List (String × TriggerStatus) :=
  tm.triggers.map (fun p => (p.1, getStatus now p.2))

/-- `TriggerManager.listTriggers` (lines 330–332 of manager.ts). -/
def listTriggers (tm : TriggerManager) : List String :=
  tm.triggers.map (fun p => p.1)

/-- `TriggerManager.cleanup` (lines 334–337 of manager.ts): stop all triggers
(then close the shared fetcher, an external resource outside this model). -/
def cleanup (tm : TriggerManager) : TriggerManager :=
  stopAllTriggers tm

/-- The `trigger --test` path of cli.ts (lines ~250–253): parse the test
limit (`parseInt(options.testLimit) || 2`, where a missing or unparsable
option is modelled as `none`), then override the found config with
`testMode: true` and `maxItemsPerCheck` set to that limit. -/
def mkTestConfig (base : TriggerConfig) (testLimit : Option Nat) : TriggerConfig :=
  { base with
    testMode := true
    maxItemsPerCheck := some (if natTruthy testLimit then testLimit.getD 0 else 2) }

/-! ### Concrete fixtures used by witnesses and counterexamples -/

/-- A handler whose promise always resolves. -/
def hOk : TriggerEvent → Except String Unit := fun _ => .ok ()

/-- A handler whose promise always rejects. -/
def hFail : TriggerEvent → Except String Unit := fun _ => .error "summarizer failed"

/-- A plain enabled rss trigger config with no cap fields set. -/
def cfgBase : TriggerConfig :=
  { id := "t1", name := "Trigger One", type := "rss", enabled := true,
    profile := "default", feedUrl := "https://example.com/feed",
    schedule := "*/5 * * * *", maxItems := none, testMode := false,
    maxItemsPerCheck := none }

/-- `cfgBase` with `enabled: false`. -/
def cfgDisabled : TriggerConfig := { cfgBase with enabled := false }

/-- A config with `maxItemsPerCheck: 0` and `maxItems: 5`. -/
def cfg0Cap : TriggerConfig :=
  { cfgBase with maxItemsPerCheck := some 0, maxItems := some 5 }

/-- A config entry whose `type` is not a recognized variant. -/
def cfgBad : TriggerConfig := { cfgBase with id := "tX", type := "webhook" }

/-- A second valid rss config entry. -/
def cfgT2 : TriggerConfig := { cfgBase with id := "t2" }

/-- A feed item with guid and link. -/
def itemA : FeedItem :=
  { guid := some "guid-a", link := some "https://example.com/a",
    itemIdField := none, title := some "Article A", pubDate := some 100,
    categories := [], creator := none, dcCreator := none }

/-- A second feed item with guid and link. -/
def itemB : FeedItem :=
  { guid := some "guid-b", link := some "https://example.com/b",
    itemIdField := none, title := some "Article B", pubDate := some 200,
    categories := [], creator := none, dcCreator := none }

/-- A feed item with a guid (so it is identifiable and counted as new) but no
link (so the dispatch loop skips it). -/
def itemNoLink : FeedItem :=
  { guid := some "guid-c", link := none, itemIdField := none,
    title := some "Article C", pubDate := none, categories := [],
    creator := none, dcCreator := none }

/-- A snapshot with two link-bearing items. -/
def feedAB : Feed := { title := some "Example Feed", items := [itemA, itemB] }

/-- A snapshot whose only item has an identifier but no link. -/
def feedNoLink : Feed := { title := some "Example Feed", items := [itemNoLink] }

/-- A snapshot with one link-bearing and one linkless item. -/
def feedMix : Feed := { title := some "Example Feed", items := [itemA, itemNoLink] }

/-- A snapshot with no items. -/
def feedEmpty : Feed := { title := some "Example Feed", items := [] }

/-- A seen-set with 1001 distinct identifiers. -/
def seenBig : List String := (List.range 1001).map (fun n => "s" ++ toString n)

/-- A running trigger holding `seenBig`. -/
def tBig : RssTrigger :=
  { config := cfgBase, seenItems := seenBig, lastCheck := none, taskRunning := true }

/-- A running trigger with one remembered identifier. -/
def tOld : RssTrigger :=
  { config := cfgBase, seenItems := ["guid-old"], lastCheck := some 1, taskRunning := true }

/-! ### Basic lemmas about the collection and dispatch loops -/

/-- The seen-set coming out of the collection loop is the incoming seen-set
with the identifiers of the collected new items appended, in feed order. -/
theorem collectNew_seen_eq (items : List FeedItem) (seen : List String) :
    (collectNew items seen).2 = seen ++ (collectNew items seen).1.filterMap getItemId := by
  induction items generalizing seen with
  | nil => simp [collectNew]
  | cons item rest ih =>
    cases h : getItemId item with
    | none => simp [collectNew, h, ih]
    | some iid =>
      by_cases hm : iid ∈ seen
      · simp [collectNew, h, hm, ih]
      · simp [collectNew, h, hm, ih (seen ++ [iid])]

/-- Every item collected as new has a truthy identifier. -/
theorem collectNew_id_isSome (items : List FeedItem) (seen : List String) :
    ∀ item ∈ (collectNew items seen).1, (getItemId item).isSome := by
  induction items generalizing seen with
  | nil => simp [collectNew]
  | cons item rest ih =>
    cases h : getItemId item with
    | none => simpa [collectNew, h] using ih seen
    | some iid =>
      by_cases hm : iid ∈ seen
      · simpa [collectNew, h, hm] using ih seen
      · intro x hx
        have hx' : x = item ∨ x ∈ (collectNew rest (seen ++ [iid])).1 := by
          simpa [collectNew, h, hm] using hx
        cases hx' with
        | inl he => subst he; simp [h]
        | inr hx' => exact ih (seen ++ [iid]) x hx'

/-- The number of identifiers appended equals the number of new items. -/
theorem collectNew_ids_length (items : List FeedItem) (seen : List String) :
    ((collectNew items seen).1.filterMap getItemId).length = (collectNew items seen).1.length := by
  induction items generalizing seen with
  | nil => simp [collectNew]
  | cons item rest ih =>
    cases h : getItemId item with
    | none => simp [collectNew, h, ih]
    | some iid =>
      by_cases hm : iid ∈ seen
      · simp [collectNew, h, hm, ih]
      · simp [collectNew, h, hm, List.filterMap_cons, ih (seen ++ [iid])]

/-- After the collection loop, every identifiable item of the walked list has
its identifier in the resulting seen-set. -/
theorem collectNew_mem (items : List FeedItem) (seen : List String) :
    ∀ item ∈ items, ∀ iid, getItemId item = some iid → iid ∈ (collectNew items seen).2 := by
  induction items generalizing seen with
  | nil => simp
  | cons item rest ih =>
    intro x hx iid hid
    have hmono : ∀ s : List String, iid ∈ s → iid ∈ (collectNew rest s).2 := by
      intro s hs
      rw [collectNew_seen_eq]
      exact List.mem_append_left _ hs
    rcases List.mem_cons.mp hx with rfl | hx
    · cases h : getItemId x with
      | none => simp [h] at hid
      | some j =>
        have hj : j = iid := by simpa [h] using hid
        subst hj
        by_cases hm : j ∈ seen
        · simpa [collectNew, h, hm] using hmono seen hm
        · have : j ∈ seen ++ [j] := by simp
          simpa [collectNew, h, hm] using hmono (seen ++ [j]) this
    · cases h : getItemId item with
      | none => simpa [collectNew, h] using ih seen x hx iid hid
      | some j =>
        by_cases hm : j ∈ seen
        · simpa [collectNew, h, hm] using ih seen x hx iid hid
        · simpa [collectNew, h, hm] using ih (seen ++ [j]) x hx iid hid

/-- If every identifiable item of the walked list is already seen, the
collection loop finds nothing new and leaves the seen-set unchanged. -/
theorem collectNew_allSeen (items : List FeedItem) (seen : List String)
    (h : ∀ item ∈ items, ∀ iid, getItemId item = some iid → iid ∈ seen) :
    collectNew items seen = ([], seen) := by
  induction items with
  | nil => simp [collectNew]
  | cons item rest ih =>
    cases hid : getItemId item with
    | none =>
      simp only [collectNew, hid]
      exact ih (fun x hx iid h' => h x (List.mem_cons_of_mem _ hx) iid h')
    | some iid =>
      have hm : iid ∈ seen := h item (List.mem_cons_self _ _) iid hid
      simp only [collectNew, hid, if_pos hm]
      exact ih (fun x hx j h' => h x (List.mem_cons_of_mem _ hx) j h')

/-- When every processed item has a truthy link, the dispatch loop emits one
event per item, in list order. -/
theorem dispatchLoop_events (cfg : TriggerConfig) (h : TriggerEvent → Except String Unit)
    (feed : Feed) (now : Nat) (l : List FeedItem)
    (hl : ∀ item ∈ l, strTruthy item.link = true) :
    (dispatchLoop cfg h feed now l).events = l.map (mkEvent cfg feed now) := by
  induction l with
  | nil => simp [dispatchLoop]
  | cons item rest ih =>
    have h1 : strTruthy item.link = true := hl item (List.mem_cons_self _ _)
    have h2 := ih (fun x hx => hl x (List.mem_cons_of_mem _ hx))
    simp [dispatchLoop, h1, h2]

/-- In general the dispatch loop emits one event per link-bearing item, in
list order: its event list is the link-filtered walked list, mapped through
the event constructor. -/
theorem dispatchLoop_events_filter (cfg : TriggerConfig)
    (h : TriggerEvent → Except String Unit) (feed : Feed) (now : Nat)
    (l : List FeedItem) :
    (dispatchLoop cfg h feed now l).events
      = (l.filter (fun item => strTruthy item.link)).map (mkEvent cfg feed now) := by
  induction l with
  | nil => simp [dispatchLoop]
  | cons item rest ih =>
    by_cases hl : strTruthy item.link = true
    · simp [dispatchLoop, hl, List.filter_cons, ih]
    · simp [dispatchLoop, hl, List.filter_cons, ih]

/-- With an enabled config, the handler is invoked for every emitted event,
whatever the handler returns on each of them. -/
theorem dispatchLoop_invoked_eq_events (cfg : TriggerConfig)
    (h : TriggerEvent → Except String Unit) (feed : Feed) (now : Nat) (l : List FeedItem)
    (he : cfg.enabled = true) :
    (dispatchLoop cfg h feed now l).invoked = (dispatchLoop cfg h feed now l).events := by
  induction l with
  | nil => simp [dispatchLoop]
  | cons item rest ih =>
    by_cases hlink : strTruthy item.link = true
    · cases hr : h (mkEvent cfg feed now item) with
      | ok u => simp [dispatchLoop, hlink, handleTriggerEvent, he, hr, ih]
      | error e => simp [dispatchLoop, hlink, handleTriggerEvent, he, hr, ih]
    · simp [dispatchLoop, hlink, ih]

/-- With a disabled config, the dispatch loop invokes no handler and logs no
error, whatever items it walks. -/
theorem dispatchLoop_disabled (cfg : TriggerConfig)
    (h : TriggerEvent → Except String Unit) (feed : Feed) (now : Nat) (l : List FeedItem)
    (he : cfg.enabled = false) :
    (dispatchLoop cfg h feed now l).invoked = [] ∧
      (dispatchLoop cfg h feed now l).errlog = [] := by
  induction l with
  | nil => simp [dispatchLoop]
  | cons item rest ih =>
    by_cases hlink : strTruthy item.link = true
    · simp [dispatchLoop, hlink, handleTriggerEvent, he, ih]
    · simp [dispatchLoop, hlink, ih]

/-- `addSeen` either leaves the set alone or appends the new identifier. -/
theorem addSeen_eq (seen : List String) (iid : String) :
    addSeen seen iid = seen ++ (if iid ∈ seen then [] else [iid]) := by
  by_cases hm : iid ∈ seen <;> simp [addSeen, hm]

/-- The pre-seeding fold of `initializeSeenItems` only ever appends to the
incoming seen-set. -/
theorem foldSeen_extends (items : List FeedItem) (seen : List String) :
    ∃ added, items.foldl (fun s item =>
      match getItemId item with
      | some iid => addSeen s iid
      | none => s) seen = seen ++ added := by
  induction items generalizing seen with
  | nil => exact ⟨[], by simp⟩
  | cons item rest ih =>
    cases h : getItemId item with
    | none =>
      obtain ⟨l, hl⟩ := ih seen
      exact ⟨l, by simp only [List.foldl_cons, h]; exact hl⟩
    | some iid =>
      obtain ⟨l, hl⟩ := ih (addSeen seen iid)
      refine ⟨(if iid ∈ seen then [] else [iid]) ++ l, ?_⟩
      simp only [List.foldl_cons, h]
      rw [hl, addSeen_eq, List.append_assoc]

/-! ### Claim theorems -/

/-- **C7, counterexample.** The claim says a poll cycle whose feed fetch
fails does not count for `lastCheck`; on a fresh trigger (where `lastCheck`
is `none`) a cycle whose fetch fails nevertheless sets `lastCheck` to the
cycle's start time, because `checkFeed` stamps `lastCheck` before fetching. -/
theorem c7_counterexample :
    (RssTrigger.new cfgBase).lastCheck = none
  ∧ (checkFeed hOk (Except.error "network down") 5 (RssTrigger.new cfgBase)).1.lastCheck
      ≠ none
  ∧ (checkFeed hOk (Except.error "network down") 5 (RssTrigger.new cfgBase)).1.lastCheck
      = some 5 := by
  decide

/-- **C7, amended.** `lastCheck` is `undefined` on a fresh trigger instance,
`getStatus` reports the stored value unchanged, and every poll cycle —
completed or failed at the fetch — sets `lastCheck` to the time at which the
cycle began (it is stamped before the fetch is attempted). -/
theorem c7_lastCheck_attempt (t : RssTrigger) (h : TriggerEvent → Except String Unit)
    (fr : Except String Feed) (now statusNow : Nat) (cfg : TriggerConfig) :
    (RssTrigger.new cfg).lastCheck = none
  ∧ (getStatus statusNow t).lastCheck = t.lastCheck
  ∧ (checkFeed h fr now t).1.lastCheck = some now := by
  refine ⟨rfl, rfl, ?_⟩
  cases fr <;> simp [checkFeed]

/-- **C8, counterexample.** The claim says `stop()` discards the seen-set;
on a running trigger remembering `"guid-old"`, `stop` leaves the seen-set
intact, and a subsequent `start` keeps the old identifier as well. -/
theorem c8_counterexample :
    (RssTrigger.stop tOld).seenItems ≠ []
  ∧ (RssTrigger.stop tOld).seenItems = tOld.seenItems
  ∧ "guid-old" ∈ (RssTrigger.start (Except.ok feedAB) (RssTrigger.stop tOld)).seenItems := by
  decide

/-- **C8, amended.** `stop()` only releases the task handle: the seen-set
(and `lastCheck`) of the same trigger instance survive a stop/start cycle,
and a subsequent `start` only ever adds identifiers on top of the retained
set; the dedup state is discarded only with the instance itself (e.g. when
`loadTriggers` replaces it or the process exits). -/
theorem c8_stop_retains_seen (t : RssTrigger) (fr : Except String Feed) :
    (RssTrigger.stop t).seenItems = t.seenItems
  ∧ (RssTrigger.stop t).taskRunning = false
  ∧ (RssTrigger.stop t).lastCheck = t.lastCheck
  ∧ ∃ added, (RssTrigger.start fr (RssTrigger.stop t)).seenItems = t.seenItems ++ added := by
  have hstop : (RssTrigger.stop t).seenItems = t.seenItems ∧
      (RssTrigger.stop t).taskRunning = false ∧
      (RssTrigger.stop t).lastCheck = t.lastCheck := by
    by_cases hr : t.taskRunning <;> simp [RssTrigger.stop, hr]
  refine ⟨hstop.1, hstop.2.1, hstop.2.2, ?_⟩
  rw [RssTrigger.start, if_neg (by simp [hstop.2.1])]
  cases fr with
  | error e => exact ⟨[], by simp [initializeSeenItems, hstop.1]⟩
  | ok feed =>
    by_cases htest : (RssTrigger.stop t).config.testMode
    · exact ⟨[], by simp [initializeSeenItems, htest, hstop.1]⟩
    · obtain ⟨l, hl⟩ := foldSeen_extends feed.items (RssTrigger.stop t).seenItems
      rw [hstop.1] at hl
      exact ⟨l, by simp [initializeSeenItems, htest, hstop.1]; exact hl⟩

/-- **C9.** At the end of every completed check cycle the seen-set holds at
most 1000 identifiers, and whenever the cycle's additions push it past 1000
it is compacted to exactly the 500 most-recently-added identifiers (the
final 500 entries of the insertion-ordered set). -/
theorem c9_seen_compaction (t : RssTrigger) (h : TriggerEvent → Except String Unit)
    (feed : Feed) (now : Nat) :
    (checkFeed h (.ok feed) now t).1.seenItems.length ≤ 1000
  ∧ ((collectNew feed.items t.seenItems).2.length > 1000 →
      (checkFeed h (.ok feed) now t).1.seenItems
        = (collectNew feed.items t.seenItems).2.drop
            ((collectNew feed.items t.seenItems).2.length - 500)
      ∧ (checkFeed h (.ok feed) now t).1.seenItems.length = 500) := by
  have hseen : (checkFeed h (.ok feed) now t).1.seenItems
      = compactSeen (collectNew feed.items t.seenItems).2 := by
    simp [checkFeed]
  constructor
  · rw [hseen]
    unfold compactSeen
    by_cases hgt : (collectNew feed.items t.seenItems).2.length > 1000
    · rw [if_pos hgt, List.length_drop]; omega
    · rw [if_neg hgt]; omega
  · intro hgt
    rw [hseen]
    unfold compactSeen
    rw [if_pos hgt]
    exact ⟨rfl, by rw [List.length_drop]; omega⟩

/-- **C9, witness.** On a trigger holding 1001 identifiers, a completed cycle
over an empty snapshot compacts the seen-set to exactly 500 entries. -/
theorem c9_witness :
    (collectNew feedEmpty.items tBig.seenItems).2.length > 1000
  ∧ (checkFeed hOk (.ok feedEmpty) 0 tBig).1.seenItems.length ≤ 1000
  ∧ (checkFeed hOk (.ok feedEmpty) 0 tBig).1.seenItems.length = 500 := by
  have hlen : (collectNew feedEmpty.items tBig.seenItems).2.length > 1000 := by
    simp [collectNew, feedEmpty, tBig, seenBig]
  exact ⟨hlen, (c9_seen_compaction tBig hOk feedEmpty 0).1,
    ((c9_seen_compaction tBig hOk feedEmpty 0).2 hlen).2⟩

/-- **C10.** After `stopAllTriggers` (and therefore after `cleanup`, whose
trigger-side effect is exactly `stopAllTriggers`, and at the start of every
`loadTriggers` call, which begins with it) the orchestrator holds no
triggers: `listTriggers` is empty, `getTriggerStatus` is an empty mapping,
and `startTrigger`/`stopTrigger` on any id reject with the not-found error. -/
theorem c10_stopAll_discards_all (tm : TriggerManager) (now : Nat) (i : String)
    (fr : Except String Feed) :
    listTriggers (stopAllTriggers tm) = []
  ∧ getTriggerStatus (stopAllTriggers tm) now = []
  ∧ startTrigger (stopAllTriggers tm) i fr = .error ("Trigger " ++ i ++ " not found")
  ∧ stopTrigger (stopAllTriggers tm) i = .error ("Trigger " ++ i ++ " not found")
  ∧ listTriggers (cleanup tm) = [] := by
  refine ⟨rfl, rfl, ?_, ?_, rfl⟩ <;>
    simp [startTrigger, stopTrigger, stopAllTriggers, mapGet]

/-- **C3, counterexample.** The claim says the cap equals `maxItemsPerCheck`
whenever it is set; with `maxItemsPerCheck` set to `0` (a falsy number in
JS), `maxItemsPerCheck || maxItems || 3` falls through to `maxItems`, so the
effective cap is 5, not 0. -/
theorem c3_counterexample :
    cfg0Cap.maxItemsPerCheck = some 0
  ∧ effCap cfg0Cap ≠ 0
  ∧ effCap cfg0Cap = 5 := by
  decide

/-- **C3, amended.** The effective cap is `maxItemsPerCheck` when it is set
to a nonzero value, else `maxItems` when set to a nonzero value, else 3
(a zero value of either field is falsy in JS and is skipped over); in an ad
hoc test invocation the CLI always overrides `maxItemsPerCheck` with the
parsed test limit, defaulting to 2, so with neither cap set the effective
test-mode cap is 2. -/
theorem c3_cap_precedence (cfg base : TriggerConfig) :
    (∀ n : Nat, cfg.maxItemsPerCheck = some n → n ≠ 0 → effCap cfg = n)
  ∧ (natTruthy cfg.maxItemsPerCheck = false →
      ∀ n : Nat, cfg.maxItems = some n → n ≠ 0 → effCap cfg = n)
  ∧ (natTruthy cfg.maxItemsPerCheck = false → natTruthy cfg.maxItems = false →
      effCap cfg = 3)
  ∧ effCap (mkTestConfig base none) = 2
  ∧ (∀ n : Nat, n ≠ 0 → effCap (mkTestConfig base (some n)) = n) := by
  refine ⟨?_, ?_, ?_, ?_, ?_⟩
  · intro n hn hnz
    simp [effCap, hn, natTruthy, hnz]
  · intro hf n hn hnz
    have h2 : natTruthy (some n) = true := by simp [natTruthy, hnz]
    simp [effCap, hf, hn, h2]
  · intro h1 h2
    simp [effCap, h1, h2]
  · simp [effCap, mkTestConfig, natTruthy]
  · intro n hnz
    simp [effCap, mkTestConfig, natTruthy, hnz]

/-- **C3, witness.** With neither cap set the production cap is 3, and the
ad hoc test invocation with no explicit limit yields cap 2. -/
theorem c3_witness :
    natTruthy cfgBase.maxItemsPerCheck = false
  ∧ natTruthy cfgBase.maxItems = false
  ∧ effCap cfgBase = 3
  ∧ effCap (mkTestConfig cfgBase none) = 2 :=
  ⟨by decide, by decide,
   (c3_cap_precedence cfgBase cfgBase).2.2.1 (by decide) (by decide),
   (c3_cap_precedence cfgBase cfgBase).2.2.2.1⟩

/-- **C4.** With `enabled: false`, the shared dispatch step drops every
event silently: the handler is never invoked, no error line is produced (and
none can propagate, by the dispatch step's total return type), while the
poll cycle still runs — the seen-set still receives every new identifier
(then undergoes the usual end-of-cycle compaction) and `lastCheck` is still
stamped. -/
theorem c4_disabled_silent_drop (t : RssTrigger) (h : TriggerEvent → Except String Unit)
    (feed : Feed) (now : Nat) (ev : TriggerEvent)
    (hd : t.config.enabled = false) :
    handleTriggerEvent t.config h ev = ⟨false, []⟩
  ∧ (checkFeed h (.ok feed) now t).2.invoked = []
  ∧ (checkFeed h (.ok feed) now t).2.errlog = []
  ∧ (checkFeed h (.ok feed) now t).1.seenItems
      = compactSeen (t.seenItems ++ (collectNew feed.items t.seenItems).1.filterMap getItemId)
  ∧ (checkFeed h (.ok feed) now t).1.lastCheck = some now := by
  have hdl := dispatchLoop_disabled t.config h feed now
      (((collectNew feed.items t.seenItems).1.take (effCap t.config)).reverse) hd
  have hseen : (checkFeed h (.ok feed) now t).1.seenItems
      = compactSeen (collectNew feed.items t.seenItems).2 := by
    simp [checkFeed]
  refine ⟨by simp [handleTriggerEvent, hd], ?_, ?_, ?_, by simp [checkFeed]⟩
  · simpa [checkFeed] using hdl.1
  · simpa [checkFeed] using hdl.2
  · rw [hseen, collectNew_seen_eq]

/-- **C4, witness.** A disabled trigger's cycle over a two-item snapshot
invokes no handler yet marks both identifiers seen. -/
theorem c4_witness :
    cfgDisabled.enabled = false
  ∧ (checkFeed hOk (.ok feedAB) 0 (RssTrigger.new cfgDisabled)).2.invoked = []
  ∧ (checkFeed hOk (.ok feedAB) 0 (RssTrigger.new cfgDisabled)).1.seenItems
      = ["guid-a", "guid-b"] :=
  ⟨by decide,
   (c4_disabled_silent_drop (RssTrigger.new cfgDisabled) hOk feedAB 0
      (mkEvent cfgDisabled feedAB 0 itemA) (by decide)).2.1,
   by decide⟩

/-- **C5.** A handler rejection is caught at the dispatch boundary and turned
into a single error line carrying the trigger's id (nothing propagates: the
dispatch step's return type has no error component), and — whatever the
handler does on each item — the handler is invoked for every event of the
cycle, so one failing item never prevents the later items of the same cycle
from being dispatched. -/
theorem c5_handler_error_contained (t : RssTrigger) (h : TriggerEvent → Except String Unit)
    (fr : Except String Feed) (now : Nat) (ev : TriggerEvent) (msg : String)
    (he : t.config.enabled = true) (hrej : h ev = .error msg) :
    handleTriggerEvent t.config h ev
      = ⟨true, ["Error handling trigger event for " ++ t.config.id ++ ": " ++ msg]⟩
  ∧ (checkFeed h fr now t).2.invoked = (checkFeed h fr now t).2.events := by
  constructor
  · simp [handleTriggerEvent, he, hrej]
  · cases fr with
    | error e => simp [checkFeed]
    | ok feed =>
      simpa [checkFeed] using
        dispatchLoop_invoked_eq_events t.config h feed now
          (((collectNew feed.items t.seenItems).1.take (effCap t.config)).reverse) he

/-- **C5, witness.** With a handler that always rejects, the rejection on the
first dispatched item is logged with the trigger's id, and the handler is
still invoked on every event of the cycle. -/
theorem c5_witness :
    cfgBase.enabled = true
  ∧ hFail (mkEvent cfgBase feedAB 0 itemB) = .error "summarizer failed"
  ∧ handleTriggerEvent cfgBase hFail (mkEvent cfgBase feedAB 0 itemB)
      = ⟨true, ["Error handling trigger event for t1: summarizer failed"]⟩
  ∧ (checkFeed hFail (.ok feedAB) 0 (RssTrigger.new cfgBase)).2.invoked
      = (checkFeed hFail (.ok feedAB) 0 (RssTrigger.new cfgBase)).2.events
  ∧ (checkFeed hFail (.ok feedAB) 0 (RssTrigger.new cfgBase)).2.invoked.length = 2 :=
  ⟨by decide, rfl,
   (c5_handler_error_contained (RssTrigger.new cfgBase) hFail (.ok feedAB) 0
      (mkEvent cfgBase feedAB 0 itemB) "summarizer failed" (by decide) rfl).1,
   (c5_handler_error_contained (RssTrigger.new cfgBase) hFail (.ok feedAB) 0
      (mkEvent cfgBase feedAB 0 itemB) "summarizer failed" (by decide) rfl).2,
   by decide⟩

/-- **C1, counterexample.** The claim promises exactly `min(N, C)` dispatched
events for `N` new identifiable items under cap `C`; a snapshot whose one new
item carries a guid but no link yields `N = 1`, `C = 3`, yet zero events are
dispatched, because the dispatch loop skips items without a usable link
(while still marking them seen). -/
theorem c1_counterexample :
    (collectNew feedNoLink.items (RssTrigger.new cfgBase).seenItems).1.length = 1
  ∧ effCap cfgBase = 3
  ∧ (checkFeed hOk (.ok feedNoLink) 0 (RssTrigger.new cfgBase)).2.events.length
      ≠ min 1 3 := by
  decide

/-- **C1, amended.** Provided every new item of the snapshot carries a truthy
link, and the cycle does not push the seen-set past the 1000-entry
compaction mark, a cycle with `N` new items under effective cap `C`
dispatches exactly `min(N, C)` events, appends all `N` new identifiers (one
per new item — not only the dispatched ones) to the seen-set, and a second
cycle against the same snapshot dispatches nothing (items deferred by the
cap are never retried). Without the link proviso the dispatched count is
only the number of link-bearing items among the first `C`; without the
compaction proviso an evicted identifier can be re-dispatched — the code's
accepted tradeoff. -/
theorem c1_cap_min_and_no_retry (t : RssTrigger) (h : TriggerEvent → Except String Unit)
    (feed : Feed) (now later : Nat)
    (hlink : ∀ item ∈ (collectNew feed.items t.seenItems).1, strTruthy item.link = true)
    (hsize : (collectNew feed.items t.seenItems).2.length ≤ 1000) :
    (checkFeed h (.ok feed) now t).2.events.length
      = min (collectNew feed.items t.seenItems).1.length (effCap t.config)
  ∧ (checkFeed h (.ok feed) now t).1.seenItems
      = t.seenItems ++ (collectNew feed.items t.seenItems).1.filterMap getItemId
  ∧ ((collectNew feed.items t.seenItems).1.filterMap getItemId).length
      = (collectNew feed.items t.seenItems).1.length
  ∧ (checkFeed h (.ok feed) later ((checkFeed h (.ok feed) now t).1)).2.events = [] := by
  have hcomp : compactSeen (collectNew feed.items t.seenItems).2
      = (collectNew feed.items t.seenItems).2 := by
    unfold compactSeen
    rw [if_neg (by omega)]
  have hstate : (checkFeed h (.ok feed) now t).1.seenItems
      = (collectNew feed.items t.seenItems).2 := by
    simp [checkFeed, hcomp]
  have hlink' : ∀ item ∈ ((collectNew feed.items t.seenItems).1.take (effCap t.config)).reverse,
      strTruthy item.link = true := by
    intro x hx
    exact hlink x (List.take_subset _ _ (List.mem_reverse.mp hx))
  have hevents : (checkFeed h (.ok feed) now t).2.events
      = (((collectNew feed.items t.seenItems).1.take (effCap t.config)).reverse).map
          (mkEvent t.config feed now) := by
    simp only [checkFeed]
    exact dispatchLoop_events _ _ _ _ _ hlink'
  refine ⟨?_, ?_, collectNew_ids_length _ _, ?_⟩
  · rw [hevents]
    simp only [List.length_map, List.length_reverse, List.length_take]
    exact Nat.min_comm _ _
  · rw [hstate, collectNew_seen_eq]
  · have hall : ∀ item ∈ feed.items, ∀ iid, getItemId item = some iid →
        iid ∈ (collectNew feed.items t.seenItems).2 :=
      collectNew_mem feed.items t.seenItems
    have h2 : collectNew feed.items (collectNew feed.items t.seenItems).2
        = ([], (collectNew feed.items t.seenItems).2) :=
      collectNew_allSeen _ _ hall
    simp [checkFeed, hcomp, h2, dispatchLoop]

/-- **C1, witness.** A fresh trigger over a two-item link-bearing snapshot
dispatches `min(2, 3) = 2` events, and a second cycle over the same snapshot
dispatches nothing. -/
theorem c1_witness :
    (∀ item ∈ (collectNew feedAB.items (RssTrigger.new cfgBase).seenItems).1,
        strTruthy item.link = true)
  ∧ (collectNew feedAB.items (RssTrigger.new cfgBase).seenItems).2.length ≤ 1000
  ∧ (checkFeed hOk (.ok feedAB) 0 (RssTrigger.new cfgBase)).2.events.length
      = min (collectNew feedAB.items (RssTrigger.new cfgBase).seenItems).1.length
          (effCap cfgBase)
  ∧ (checkFeed hOk (.ok feedAB) 1
        ((checkFeed hOk (.ok feedAB) 0 (RssTrigger.new cfgBase)).1)).2.events = [] :=
  ⟨by decide, by decide,
   (c1_cap_min_and_no_retry (RssTrigger.new cfgBase) hOk feedAB 0 1
      (by decide) (by decide)).1,
   (c1_cap_min_and_no_retry (RssTrigger.new cfgBase) hOk feedAB 0 1
      (by decide) (by decide)).2.2.2⟩

/-- **C2, counterexample.** The claim says the dispatched events are exactly
the first `C` new items, truncated then reversed; on a snapshot whose second
new item has no link, the reversed truncation holds two items but only one
event is dispatched, so the two lists differ. -/
theorem c2_counterexample :
    (checkFeed hOk (.ok feedMix) 0 (RssTrigger.new cfgBase)).2.events
      ≠ (((collectNew feedMix.items (RssTrigger.new cfgBase).seenItems).1.take
            (effCap cfgBase)).reverse).map (mkEvent cfgBase feedMix 0) := by
  decide

/-- **C2, amended.** For every cycle, unconditionally: the new-item list is
truncated to the cap and then reversed, and the dispatched events are
exactly the link-bearing items of that reversed truncation, one event per
item, in that order (oldest qualifying item first, dispatch sequential);
an item among the first `C` without a truthy link is skipped at dispatch
(though still counted as new and marked seen). -/
theorem c2_truncate_then_reverse (t : RssTrigger) (h : TriggerEvent → Except String Unit)
    (feed : Feed) (now : Nat) :
    (checkFeed h (.ok feed) now t).2.events
      = ((((collectNew feed.items t.seenItems).1.take (effCap t.config)).reverse).filter
          (fun item => strTruthy item.link)).map (mkEvent t.config feed now) := by
  simp only [checkFeed]
  exact dispatchLoop_events_filter _ _ _ _ _

/-- **C2, witness.** On a mixed snapshot (one link-bearing item, one new item
without a link) the filtered characterization holds concretely: only the
link-bearing item's event is dispatched, and on an all-link snapshot the
dispatch order is the reverse of feed order (the later-listed, older item's
URL first). -/
theorem c2_witness :
    (checkFeed hOk (.ok feedMix) 0 (RssTrigger.new cfgBase)).2.events
      = ((((collectNew feedMix.items (RssTrigger.new cfgBase).seenItems).1.take
            (effCap cfgBase)).reverse).filter
          (fun item => strTruthy item.link)).map (mkEvent cfgBase feedMix 0)
  ∧ ((checkFeed hOk (.ok feedMix) 0 (RssTrigger.new cfgBase)).2.events.map
        (fun e => e.url))
      = ["https://example.com/a"]
  ∧ ((checkFeed hOk (.ok feedAB) 0 (RssTrigger.new cfgBase)).2.events.map
        (fun e => e.url))
      = ["https://example.com/b", "https://example.com/a"] :=
  ⟨c2_truncate_then_reverse (RssTrigger.new cfgBase) hOk feedMix 0,
   by decide, by decide⟩

/-- The key list of `mapSet`: unchanged when the key was present (in-place
replacement), appended otherwise. -/
theorem mapSet_keys (m : List (String × RssTrigger)) (k : String) (v : RssTrigger) :
    (mapSet m k v).map Prod.fst
      = if m.any (fun p => p.1 == k) then m.map Prod.fst else m.map Prod.fst ++ [k] := by
  have hmap : ∀ m' : List (String × RssTrigger),
      List.map (Prod.fst ∘ fun p => if (p.1 == k) = true then (k, v) else p) m'
        = List.map Prod.fst m' := by
    intro m'
    induction m' with
    | nil => simp
    | cons p rest ih =>
      by_cases hk : (p.1 == k) = true
      · have hpk : p.1 = k := eq_of_beq hk
        simp only [List.map_cons, ih, Function.comp_apply, if_pos hk]
        rw [hpk]
      · simp only [List.map_cons, ih, Function.comp_apply, if_neg hk]
  by_cases h : m.any (fun p => p.1 == k)
  · rw [mapSet, if_pos h, if_pos h, List.map_map, hmap]
  · rw [mapSet, if_neg h, if_neg h]
    simp

/-- Keys present before `mapSet` are still present after. -/
theorem mapSet_keys_sub (m : List (String × RssTrigger)) (k : String) (v : RssTrigger)
    (a : String) (ha : a ∈ m.map Prod.fst) : a ∈ (mapSet m k v).map Prod.fst := by
  rw [mapSet_keys]
  split
  · exact ha
  · exact List.mem_append_left _ ha

/-- After `mapSet m k v`, the key `k` is present. -/
theorem mapSet_key_mem (m : List (String × RssTrigger)) (k : String) (v : RssTrigger) :
    k ∈ (mapSet m k v).map Prod.fst := by
  rw [mapSet_keys]
  by_cases h : m.any (fun p => p.1 == k)
  · rw [if_pos h]
    obtain ⟨p, hp, hpk⟩ := List.any_eq_true.mp h
    exact List.mem_map.mpr ⟨p, hp, eq_of_beq hpk⟩
  · rw [if_neg h]
    simp

/-- A key distinct from `k` and absent before `mapSet m k v` is still absent. -/
theorem mapSet_keys_not_mem (m : List (String × RssTrigger)) (k : String) (v : RssTrigger)
    (a : String) (h1 : a ∉ m.map Prod.fst) (h2 : a ≠ k) :
    a ∉ (mapSet m k v).map Prod.fst := by
  rw [mapSet_keys]
  split
  · exact h1
  · intro hmem
    rcases List.mem_append.mp hmem with hma | hk
    · exact h1 hma
    · exact h2 (by simpa using hk)

/-- Log lines present on entry to the load loop are never removed. -/
theorem loadAux_log_mono (cfgs : List TriggerConfig) (tm : TriggerManager)
    (log : List String) (x : String) (hx : x ∈ log) :
    x ∈ (loadTriggersAux tm log cfgs).2 := by
  induction cfgs generalizing tm log with
  | nil => simpa [loadTriggersAux] using hx
  | cons cfg rest ih =>
    by_cases hc : cfg.type == "rss"
    · simp only [loadTriggersAux, createTrigger, if_pos hc]
      exact ih _ _ (by simpa using hx)
    · simp only [loadTriggersAux, createTrigger, if_neg hc]
      exact ih _ _ (List.mem_append_left _ hx)

/-- Trigger ids held on entry to the load loop are still held afterwards. -/
theorem loadAux_keys_mono (cfgs : List TriggerConfig) (tm : TriggerManager)
    (log : List String) (a : String) (ha : a ∈ listTriggers tm) :
    a ∈ listTriggers (loadTriggersAux tm log cfgs).1 := by
  induction cfgs generalizing tm log with
  | nil => simpa [loadTriggersAux] using ha
  | cons cfg rest ih =>
    by_cases hc : cfg.type == "rss"
    · simp only [loadTriggersAux, createTrigger, if_pos hc]
      exact ih _ _ (mapSet_keys_sub _ _ _ _ ha)
    · simp only [loadTriggersAux, createTrigger, if_neg hc]
      exact ih _ _ ha

/-- Every config of recognized type walked by the load loop ends up
registered under its id. -/
theorem loadAux_registers (cfgs : List TriggerConfig) (tm : TriggerManager)
    (log : List String) (c : TriggerConfig) (hc : c ∈ cfgs) (hrss : c.type = "rss") :
    c.id ∈ listTriggers (loadTriggersAux tm log cfgs).1 := by
  induction cfgs generalizing tm log with
  | nil => cases hc
  | cons cfg rest ih =>
    rcases List.mem_cons.mp hc with rfl | hc'
    · have hb : c.type == "rss" := by simp [hrss]
      simp only [loadTriggersAux, createTrigger, if_pos hb]
      exact loadAux_keys_mono _ _ _ _ (mapSet_key_mem _ _ _)
    · by_cases hb : cfg.type == "rss"
      · simp only [loadTriggersAux, createTrigger, if_pos hb]
        exact ih _ _ hc'
      · simp only [loadTriggersAux, createTrigger, if_neg hb]
        exact ih _ _ hc'

/-- An id held by no incoming rss config and absent on entry is absent after
the load loop. -/
theorem loadAux_skips (cfgs : List TriggerConfig) (tm : TriggerManager)
    (log : List String) (a : String) (ha : a ∉ listTriggers tm)
    (hc : ∀ c ∈ cfgs, c.type = "rss" → c.id ≠ a) :
    a ∉ listTriggers (loadTriggersAux tm log cfgs).1 := by
  induction cfgs generalizing tm log with
  | nil => simpa [loadTriggersAux] using ha
  | cons cfg rest ih =>
    by_cases hb : cfg.type == "rss"
    · simp only [loadTriggersAux, createTrigger, if_pos hb]
      refine ih _ _ ?_ (fun c h h' => hc c (List.mem_cons_of_mem _ h) h')
      exact mapSet_keys_not_mem _ _ _ _ ha
        (fun he => hc cfg (List.mem_cons_self _ _) (by simpa using hb) he.symm)
    · simp only [loadTriggersAux, createTrigger, if_neg hb]
      exact ih _ _ ha (fun c h h' => hc c (List.mem_cons_of_mem _ h) h')

/-- Every config of unrecognized type walked by the load loop leaves its
error line in the log. -/
theorem loadAux_logs_unknown (cfgs : List TriggerConfig) (tm : TriggerManager)
    (log : List String) (c : TriggerConfig) (hc : c ∈ cfgs) (hbad : c.type ≠ "rss") :
    ("Unknown trigger type: " ++ c.type) ∈ (loadTriggersAux tm log cfgs).2 := by
  induction cfgs generalizing tm log with
  | nil => cases hc
  | cons cfg rest ih =>
    rcases List.mem_cons.mp hc with rfl | hc'
    · have hb : ¬ (c.type == "rss") = true := by simpa using hbad
      simp only [loadTriggersAux, createTrigger, if_neg hb]
      exact loadAux_log_mono _ _ _ _ (by simp)
    · by_cases hb : cfg.type == "rss"
      · simp only [loadTriggersAux, createTrigger, if_pos hb]
        exact ih _ _ hc'
      · simp only [loadTriggersAux, createTrigger, if_neg hb]
        exact ih _ _ hc'

/-- **C6.** During `loadTriggers`, a batch entry with an unrecognized type
produces the error line `"Unknown trigger type: <type>"`, registers no
trigger under its id (assuming no valid entry of the batch reuses that id),
and does not prevent the valid rss entries of the same batch from being
constructed and registered. -/
theorem c6_unknown_type_skipped (tm : TriggerManager) (pre post : List TriggerConfig)
    (bad : TriggerConfig) (hbad : bad.type ≠ "rss")
    (hid : ∀ c ∈ pre ++ post, c.type = "rss" → c.id ≠ bad.id) :
    ("Unknown trigger type: " ++ bad.type) ∈ (loadTriggers tm (pre ++ bad :: post)).2
  ∧ bad.id ∉ listTriggers (loadTriggers tm (pre ++ bad :: post)).1
  ∧ ∀ c ∈ pre ++ post, c.type = "rss" →
      c.id ∈ listTriggers (loadTriggers tm (pre ++ bad :: post)).1 := by
  unfold loadTriggers
  refine ⟨?_, ?_, ?_⟩
  · exact loadAux_logs_unknown _ _ _ bad (by simp) hbad
  · refine loadAux_skips _ _ _ _ (by simp [stopAllTriggers, listTriggers]) ?_
    intro c hcmem hrss
    rcases List.mem_append.mp hcmem with h1 | h2
    · exact hid c (List.mem_append_left _ h1) hrss
    · rcases List.mem_cons.mp h2 with rfl | h3
      · exact absurd hrss hbad
      · exact hid c (List.mem_append_right _ h3) hrss
  · intro c hcmem hrss
    refine loadAux_registers _ _ _ c ?_ hrss
    rcases List.mem_append.mp hcmem with h1 | h2
    · exact List.mem_append_left _ h1
    · exact List.mem_append_right _ (List.mem_cons_of_mem _ h2)

/-- **C6, witness.** A batch `[t1, webhook-typed tX, t2]` logs the unknown
type, skips `tX`, and still registers `t1` and `t2`. -/
theorem c6_witness :
    cfgBad.type ≠ "rss"
  ∧ ("Unknown trigger type: webhook") ∈ (loadTriggers ⟨[]⟩ ([cfgBase] ++ cfgBad :: [cfgT2])).2
  ∧ cfgBad.id ∉ listTriggers (loadTriggers ⟨[]⟩ ([cfgBase] ++ cfgBad :: [cfgT2])).1
  ∧ cfgBase.id ∈ listTriggers (loadTriggers ⟨[]⟩ ([cfgBase] ++ cfgBad :: [cfgT2])).1
  ∧ cfgT2.id ∈ listTriggers (loadTriggers ⟨[]⟩ ([cfgBase] ++ cfgBad :: [cfgT2])).1 :=
  ⟨by decide,
   (c6_unknown_type_skipped ⟨[]⟩ [cfgBase] [cfgT2] cfgBad (by decide) (by decide)).1,
   (c6_unknown_type_skipped ⟨[]⟩ [cfgBase] [cfgT2] cfgBad (by decide) (by decide)).2.1,
   (c6_unknown_type_skipped ⟨[]⟩ [cfgBase] [cfgT2] cfgBad (by decide) (by decide)).2.2
     cfgBase (by simp) rfl,
   (c6_unknown_type_skipped ⟨[]⟩ [cfgBase] [cfgT2] cfgBad (by decide) (by decide)).2.2
     cfgT2 (by simp) rfl⟩
